import Mathlib

/-!
# News portal query engine: shallow embedding and verification

This file embeds the data model and the read operations of the news-portal
repository and proves properties of them.

Layers embedded here:

* `Repo` — the go-pg based data access layer (`internal/db/repo.go`):
  `GetAllNews`, `GetNewsCount`, `GetNewsByID`, `GetTagsByIDs`, together with
  the record types of the `internal/db` model file (`News`, `Category`, `Tag`).
* `Pgx` — the pgx based data access layer
  (`internal/repository/postgres/postgres.go`): `GetAllNews`, whose SQL applies
  only the tag/category filters and no visibility predicates.
* `NP` — the `newsportal` business layer: `Manager.attachTagsBatch`
  (batch tag enrichment), `NewsList.SetTags` (`collection.go`),
  `validatePagination`, `Manager.TagsByIds` and `Manager.NewsByFilter`
  (`news.go`).

Time is modelled as an integer instant; a query receives the current instant
`now` explicitly where the Go code calls `time.Now()`.  Storage failures
(connectivity, timeouts) are modelled by an optional injected failure in the
store passed to the business layer, and by quantifying over the fetch result
where the business layer consumes a repository call.
-/

/-- Category row (`categories` table): id, title, display order, status. -/
structure Category where
  categoryId : Int
  title : String
  orderNumber : Int
  statusId : Int
deriving DecidableEq, Repr

/-- Tag row (`tags` table): id, title, status. -/
structure Tag where
  tagId : Int
  title : String
  statusId : Int
deriving DecidableEq, Repr

/-- News row (`news` table), including the in-memory `Category` relation and
the `Tags` field (`pg:"-"`) that is filled by the application layer. -/
structure News where
  newsId : Int
  categoryId : Int
  title : String
  content : String
  author : String
  publishedAt : Int
  updatedAt : Option Int
  statusId : Int
  tagIds : List Int
  category : Option Category
  tags : List Tag
deriving DecidableEq, Repr

/-- The relational state: the three tables the query engine reads. -/
structure DB where
  news : List News
  categories : List Category
  tags : List Tag
deriving Repr

/-- The published status code (reference data value 1). -/
def StatusPublished : Int := 1

/-- The `Relation("Category")` join: the category row whose primary key equals
the news row's `categoryId`. -/
def categoryOf (db : DB) (n : News) : Option Category :=
  db.categories.find? (fun c => c.categoryId == n.categoryId)

/-- Descending order on publication instants (`ORDER BY "publishedAt" DESC`). -/
def publishedAtDesc (a b : News) : Prop := b.publishedAt ≤ a.publishedAt

instance : DecidableRel publishedAtDesc := fun a b =>
  inferInstanceAs (Decidable (b.publishedAt ≤ a.publishedAt))

/-- Ascending order on tag titles (`ORDER BY "title" ASC`). -/
def tagTitleAsc (a b : Tag) : Prop := a.title ≤ b.title

instance : DecidableRel tagTitleAsc := fun a b =>
  inferInstanceAs (Decidable (a.title ≤ b.title))

namespace Repo

/-- The optional-equality filter on the category id column. -/
def catFilter (categoryID : Option Int) (n : News) : Bool :=
  match categoryID with
  | some cid => n.categoryId == cid
  | none => true

/-- The optional array-containment filter `? = ANY("t"."tagIds")`. -/
def tagFilter (tagID : Option Int) (n : News) : Bool :=
  match tagID with
  | some tid => n.tagIds.contains tid
  | none => true

/-- The visibility predicate of `Repository.GetAllNews` / `GetNewsByID`
(`repo.go`): own status published, joined category exists and is published,
publication instant strictly before `now`. -/
def visible (db : DB) (now : Int) (n : News) : Bool :=
  n.statusId == StatusPublished &&
  (match categoryOf db n with
   | some c => c.statusId == StatusPublished
   | none => false) &&
  decide (n.publishedAt < now)

/-- Embedding of `Repository.GetAllNews` (`internal/db/repo.go` lines 64–123):
rejects
`page < 1 || pageSize < 1`, filters by visibility plus the optional filters,
orders by `publishedAt` descending, applies `offset = (page-1)*pageSize` and
`limit = pageSize`, and loads the `Category` relation on the returned rows. -/
def GetAllNews (db : DB) (tagID categoryID : Option Int)
    (page pageSize : Int) (now : Int) : Except String (List News) :=
  if page < 1 || pageSize < 1 then
    .error "page or pageSize must be greater than 0"
  else
    let offset := (page - 1) * pageSize
    let rows := db.news.filter (fun n =>
      visible db now n && catFilter categoryID n && tagFilter tagID n)
    let sorted := List.insertionSort publishedAtDesc rows
    let paged := (sorted.drop offset.toNat).take pageSize.toNat
    .ok (paged.map (fun n => { n with category := categoryOf db n }))

/-- Embedding of `Repository.GetNewsCount` (`internal/db/repo.go` lines
125–156): counts
news rows matching only the optional tag/category filters; no visibility
predicate appears in the query. -/
def GetNewsCount (db : DB) (tagID categoryID : Option Int) :
    Except String Nat :=
  .ok (db.news.filter (fun n =>
    catFilter categoryID n && tagFilter tagID n)).length

/-- Error kinds of the single-row lookup: the sentinel `ErrNewsNotFound`
(wrapping of `pg.ErrNoRows`) and other storage failures. -/
inductive DbError where
  | notFound
  | failure (msg : String)
deriving DecidableEq, Repr

/-- Embedding of `Repository.GetNewsByID` (`internal/db/repo.go` lines
158–185): same
visibility predicate as the listing plus `"newsId" = ?`; when no row matches
it returns the `ErrNewsNotFound` error (from `pg.ErrNoRows`). -/
def GetNewsByID (db : DB) (newsID : Int) (now : Int) : Except DbError News :=
  match db.news.find? (fun n => visible db now n && n.newsId == newsID) with
  | some n => .ok { n with category := categoryOf db n }
  | none => .error .notFound

/-- Embedding of `Repository.GetTagsByIDs` (`internal/db/repo.go` lines
225–247): empty
input short-circuits to an empty list; otherwise selects the tags whose id is
in the input and whose status is published, ordered by title ascending. -/
def GetTagsByIDs (db : DB) (tagIds : List Int) : List Tag :=
  if tagIds.isEmpty then []
  else
    List.insertionSort tagTitleAsc
      (db.tags.filter (fun t =>
        tagIds.contains t.tagId && t.statusId == StatusPublished))

end Repo

namespace Pgx

/-- Embedding of `Repository.GetAllNews` of the pgx variant
(`internal/repository/postgres/postgres.go` lines 15–124): rejects
`page < 1 || pageSize < 1`; the SQL joins `categories` and filters only by the
optional category/tag filters — it contains no status or publication-time
condition.  Each scanned row then gets its tags via a per-row `getTagsByIDs`
call (which filters only by id, not by status, ordered by title). -/
def GetAllNews (db : DB) (tagID categoryID : Option Int)
    (page pageSize : Int) : Except String (List News) :=
  if page < 1 || pageSize < 1 then
    .error "page or pageSize must be greater than 0"
  else
    let offset := (page - 1) * pageSize
    let rows := db.news.filter (fun n =>
      (categoryOf db n).isSome &&
      Repo.catFilter categoryID n && Repo.tagFilter tagID n)
    let sorted := List.insertionSort publishedAtDesc rows
    let paged := (sorted.drop offset.toNat).take pageSize.toNat
    .ok (paged.map (fun n =>
      { n with
        category := categoryOf db n
        tags := List.insertionSort tagTitleAsc
          (db.tags.filter (fun t => n.tagIds.contains t.tagId)) }))

/-- One round-trip of the pgx `getTagsByIDs`
(`internal/repository/postgres/postgres.go` lines 326–369) against storage:
selects the tags with the requested ids — no status filter — ordered by
title ascending, and increments the storage round-trip counter. -/
def getTagsByIDsCounted (db : DB) (ids : List Int) (calls : Nat) :
    List Tag × Nat :=
  (List.insertionSort tagTitleAsc
    (db.tags.filter (fun t => ids.contains t.tagId)), calls + 1)

/-- Embedding of the `rows.Next()` scan loop of the pgx
`Repository.GetAllNews` (`postgres.go` lines 69–108): each scanned row with a
non-empty tag-id list triggers its own `getTagsByIDs` round-trip
(lines 96–101); a row with no tag ids gets an empty list without a call. -/
def scanRows (db : DB) (rows : List News) (calls : Nat) :
    List News × Nat :=
  match rows with
  | [] => ([], calls)
  | n :: rest =>
    let (tags, calls') :=
      if n.tagIds.isEmpty then ([], calls)
      else getTagsByIDsCounted db n.tagIds calls
    let (rest', calls'') := scanRows db rest calls'
    ({ n with category := categoryOf db n, tags := tags } :: rest', calls'')

/-- Embedding of the pgx `Repository.GetAllNews` instrumented with the
storage round-trip counter of its per-row tag enrichment: the same guard,
filters, ordering and pagination as `Pgx.GetAllNews`, with the scan loop made
explicit so the number of `getTagsByIDs` calls it issues is observable. -/
def GetAllNewsCounted (db : DB) (tagID categoryID : Option Int)
    (page pageSize : Int) (calls : Nat) :
    Except String (List News) × Nat :=
  if page < 1 || pageSize < 1 then
    (.error "page or pageSize must be greater than 0", calls)
  else
    let offset := (page - 1) * pageSize
    let rows := db.news.filter (fun n =>
      (categoryOf db n).isSome &&
      Repo.catFilter categoryID n && Repo.tagFilter tagID n)
    let sorted := List.insertionSort publishedAtDesc rows
    let paged := (sorted.drop offset.toNat).take pageSize.toNat
    let (out, calls') := scanRows db paged calls
    (.ok out, calls')

end Pgx

namespace NP

/-- The storage handle held by the `newsportal` manager: the relational state,
an optional injected storage failure (connectivity/timeout — when present
every storage round-trip fails with it), and a counter of tag-lookup
round-trips actually issued against storage. -/
structure TagStore where
  db : DB
  fail : Option String
  lookupCalls : Nat
deriving Repr

/-- One storage round-trip of `Repository.GetTagsByIDs`: increments the
round-trip counter and returns either the injected failure or the published
tags whose ids are in the request. -/
def tagStoreLookup (s : TagStore) (tagIds : List Int) :
    Except String (List Tag) × TagStore :=
  let s' := { s with lookupCalls := s.lookupCalls + 1 }
  match s.fail with
  | some msg => (.error msg, s')
  | none => (.ok (Repo.GetTagsByIDs s.db tagIds), s')

/-- The union of tag ids referenced across the rows, deduplicated
(the `tagSet` map built by `attachTagsBatch`). -/
def uniqueTagIds (news : List News) : List Int :=
  ((news.map (fun n => n.tagIds)).flatten).dedup

/-- Go map indexing `tagsByID[id]`: the last inserted tag with that id
(later writes win). -/
def lookupTag (tags : List Tag) (id : Int) : Option Tag :=
  tags.reverse.find? (fun t => t.tagId == id)

/-- Embedding of `Manager.attachTagsBatch` (`src/unnamed/part_016` lines
150–207):
empty page returned as-is; if the union of tag ids is empty every row's tag
list becomes `[]` with no lookup; otherwise one `GetTagsByIDs` round-trip for
the whole union, a map from id to tag, and per row the tags found in the map
(ids absent from the map are skipped), sorted by title ascending. -/
def attachTagsBatch (news : List News) (s : TagStore) :
    Except String (List News) × TagStore :=
  if news.isEmpty then (.ok news, s)
  else
    let allTagIDs := uniqueTagIds news
    if allTagIDs.isEmpty then
      (.ok (news.map (fun n => { n with tags := [] })), s)
    else
      match tagStoreLookup s allTagIDs with
      | (.error e, s') => (.error ("get tags by ids: " ++ e), s')
      | (.ok tags, s') =>
        (.ok (news.map (fun n =>
          if n.tagIds.isEmpty then { n with tags := [] }
          else
            let out := List.insertionSort tagTitleAsc
              (n.tagIds.filterMap (lookupTag tags))
            { n with tags := out })), s')

/-- The Go zero value of the `Tag` struct (what a map lookup yields for an
absent key). -/
def zeroTag : Tag := { tagId := 0, title := "", statusId := 0 }

/-- Embedding of `NewsList.SetTags` (`internal/newsportal/collection.go`
lines 9–17):
each row's tag list is rebuilt with `make([]Tag, len(TagIDs))` and filled by
indexing the id→tag map; an id absent from the map contributes the zero-value
`Tag` at its position. -/
def SetTags (ll : List News) (tags : List Tag) : List News :=
  ll.map (fun n =>
    { n with tags := n.tagIds.map (fun id => (lookupTag tags id).getD zeroTag) })

/-- Constant `defaultPage` (`internal/newsportal/news.go`). -/
def defaultPage : Int := 1

/-- Constant `defaultPageSize` (`internal/newsportal/news.go`). -/
def defaultPageSize : Int := 10

/-- Constant `maxPageSize` (`internal/newsportal/news.go`). -/
def maxPageSize : Int := 100

/-- Embedding of `validatePagination` (`internal/newsportal/news.go` lines
125–146):
absent page defaults to 1, an explicit page `≤ 0` is rejected; absent page
size defaults to 10, an explicit page size `≤ 0` is rejected and an explicit
page size above 100 is capped to 100. -/
def validatePagination (page pageSize : Option Int) :
    Except String (Int × Int) :=
  let pres : Except String Int :=
    match page with
    | none => .ok defaultPage
    | some v => if v ≤ 0 then .error "invalid page" else .ok v
  match pres with
  | .error e => .error e
  | .ok p =>
    match pageSize with
    | none => .ok (p, defaultPageSize)
    | some v =>
      if v ≤ 0 then .error "invalid pageSize"
      else .ok (p, if v > maxPageSize then maxPageSize else v)

/-- Embedding of `Manager.TagsByIds` (`internal/newsportal/news.go` lines
113–123): empty
id list short-circuits without a storage call; otherwise one
`TagsByFilters(..., EnabledOnly())` round-trip.  The generated go-pg
repository method `TagsByFilters` is not under `src/`; its effect —
modelled from the spec (`fetchTagsByIDs(ids, statusFilter=published)`) — is
the published tags with the requested ids, here realised by the store
round-trip `tagStoreLookup`. -/
def TagsByIds (s : TagStore) (tagIds : List Int) :
    Except String (List Tag) × TagStore :=
  if tagIds.isEmpty then (.ok [], s)
  else tagStoreLookup s tagIds

/-- Modelled from the spec: `Manager.fillTags` is called by
`Manager.NewsByFilter`/`NewsByID` (`news.go`) but its definition (generated
together with the colgen helpers `UniqueTagIDs`/`IndexByID`) is not under
`src/`.  Per the spec's Tag Batch Attach contract it gathers the union of the
rows' tag ids, fetches those tags once via `TagsByIds`, and attaches them to
the rows via `NewsList.SetTags`. -/
def fillTags (s : TagStore) (list : List News) :
    Except String (List News) × TagStore :=
  match TagsByIds s (uniqueTagIds list) with
  | (.error e, s') => (.error e, s')
  | (.ok tags, s') => (.ok (SetTags list tags), s')

/-- Embedding of `Manager.NewsByFilter` (`internal/newsportal/news.go`
lines 40–63).
The generated repository call `NewsByFilters` is not under `src/`; its result
for the given filters is taken as the argument `fetched` (on failure the Go
call returns a nil slice together with the error).  The embedding mirrors the
source line by line: the pagination error is wrapped and returned, but the
error of the fetch itself is assigned and never tested — `dbNews` (nil on
failure, hence the empty list here) flows on and `err` is overwritten by the
`fillTags` result. -/
def NewsByFilter (fetched : Except String (List News)) (s : TagStore)
    (page pageSize : Option Int) : Except String (List News) × TagStore :=
  match validatePagination page pageSize with
  | .error e => (.error ("invalid pagination parameters: " ++ e), s)
  | .ok _ =>
    let dbNews : List News :=
      match fetched with
      | .ok l => l
      | .error _ => []
    match fillTags s dbNews with
    | (.error e, s') => (.error ("failed to attach tags to news: " ++ e), s')
    | (.ok out, s') => (.ok out, s')

/-- Erasing the application-filled tag list.  Two rows agree on every field
other than `tags` exactly when `clearTags` maps them to the same value. -/
def clearTags (n : News) : News := { n with tags := [] }

end NP

/-! ### Concrete fixture data

A small relational state used by witnesses and counterexamples: one published
category, one unpublished category, one published and one unpublished tag, one
visible news row referencing both tags, and one unpublished news row. -/

/-- A published category. -/
def fixCat : Category := ⟨1, "cat", 1, 1⟩

/-- An unpublished category. -/
def fixCatHidden : Category := ⟨2, "hid", 2, 2⟩

/-- A published tag. -/
def fixTagA : Tag := ⟨1, "a", 1⟩

/-- An unpublished tag. -/
def fixTagB : Tag := ⟨2, "b", 2⟩

/-- A published news row (visible at instant 10) referencing tags 1 and 2. -/
def fixNews1 : News := ⟨1, 1, "t1", "body1", "au", 5, none, 1, [1, 2], none, []⟩

/-- An unpublished news row (status 2). -/
def fixNews2 : News := ⟨2, 1, "t2", "body2", "au", 7, none, 2, [1], none, []⟩

/-- The fixture relational state. -/
def fixDB : DB := ⟨[fixNews1, fixNews2], [fixCat, fixCatHidden], [fixTagA, fixTagB]⟩

/-- The fixture store with no injected failure and no round-trips issued. -/
def fixStore : NP.TagStore := ⟨fixDB, none, 0⟩

/-- A fixture state whose every news row is visible at instant 10. -/
def fixDBVisible : DB := ⟨[fixNews1], [fixCat], [fixTagA, fixTagB]⟩

/-! ### Helper lemmas -/

/-- The function `validatePagination` fails whenever an explicit page or page
size below 1
is supplied. -/
theorem validatePagination_error_of_invalid (page pageSize : Option Int)
    (h : (∃ pv, page = some pv ∧ pv < 1) ∨ (∃ psv, pageSize = some psv ∧ psv < 1)) :
    ∃ e, NP.validatePagination page pageSize = .error e := by
  rcases h with ⟨pv, hp, hpv⟩ | ⟨psv, hps, hpsv⟩
  · subst hp
    have : pv ≤ 0 := by omega
    exact ⟨"invalid page", by simp [NP.validatePagination, this]⟩
  · subst hps
    have hle : psv ≤ 0 := by omega
    cases page with
    | none => exact ⟨"invalid pageSize", by simp [NP.validatePagination, hle]⟩
    | some v =>
      by_cases hv : v ≤ 0
      · exact ⟨"invalid page", by simp [NP.validatePagination, hv]⟩
      · exact ⟨"invalid pageSize", by simp [NP.validatePagination, hv, hle]⟩

/-! ### Claim C4 — the listing drops the fetch error (code bug) -/

/-- C4: evaluating `Manager.NewsByFilter` (`news.go` lines 40–63) at a failing
database fetch and default pagination: the storage error assigned at line 46
is never checked and is overwritten at line 57, so the call returns a
successful empty page instead of the wrapped storage error that the spec (and
the sibling variant in `src/unnamed/part_018`) prescribe. -/
theorem newsByFilter_drops_fetch_error :
    (NP.NewsByFilter (.error "connection refused") fixStore none none).1 =
      .ok [] := by
  rfl

/-! ### Claim C6 — counterexample and amended statement -/

/-- C6 counterexample: looking up an id for which no visible row exists,
`Repository.GetNewsByID` (`repo.go` lines 158–185) returns the
`ErrNewsNotFound` error — an error return, not the absent/empty success
result the claim asserts. -/
theorem getNewsByID_errors_on_no_match :
    Repo.GetNewsByID fixDB 99999 10 = .error Repo.DbError.notFound := by
  rfl

/-- C6 amended: whenever no stored row is both visible and id-matching —
whether the id is entirely absent or the row exists but is hidden —
`Repository.GetNewsByID` returns the one `ErrNewsNotFound` error, so the
signal does not distinguish the two cases; but it is an error return, not an
absent/empty success result. -/
theorem getNewsByID_notFound_uniform (db : DB) (newsID now : Int)
    (h : ∀ n ∈ db.news, ¬(Repo.visible db now n = true ∧ n.newsId = newsID)) :
    Repo.GetNewsByID db newsID now = .error Repo.DbError.notFound := by
  have hfind : db.news.find?
      (fun n => Repo.visible db now n && n.newsId == newsID) = none := by
    apply List.find?_eq_none.mpr
    intro n hn
    simp only [Bool.and_eq_true, beq_iff_eq]
    intro hcontra
    exact h n hn hcontra
  simp [Repo.GetNewsByID, hfind]

/-- C6 amended, witness: the fixture state has no visible row with id 99999
(the id is absent) and none with id 2 (the row exists but is unpublished);
both lookups yield the same `ErrNewsNotFound` error. -/
theorem getNewsByID_notFound_uniform_witness :
    Repo.GetNewsByID fixDB 99999 10 = .error Repo.DbError.notFound ∧
    Repo.GetNewsByID fixDB 2 10 = .error Repo.DbError.notFound := by
  constructor
  · exact getNewsByID_notFound_uniform fixDB 99999 10 (by decide)
  · exact getNewsByID_notFound_uniform fixDB 2 10 (by decide)

/-! ### Claim C1 — counterexample and amended statement -/

/-- C1 counterexample: the pgx listing
(`internal/repository/postgres/postgres.go` `GetAllNews`) returns the fixture
row with status 2 — an unpublished row — because its SQL applies no
visibility predicate, refuting the claim for the `GetAllNews` variant it
names. -/
theorem pgx_getAllNews_returns_unpublished :
    ∃ rows, Pgx.GetAllNews fixDB none none 1 10 = .ok rows ∧
      ∃ r ∈ rows, ¬ r.statusId = StatusPublished := by
  refine ⟨_, rfl, ?_⟩
  decide

/-- Unpacking the visibility boolean: published status, a published joined
category, publication before `now`. -/
theorem visible_spec (db : DB) (now : Int) (n : News)
    (h : Repo.visible db now n = true) :
    n.statusId = StatusPublished ∧
      (∃ c, categoryOf db n = some c ∧ c.statusId = StatusPublished) ∧
      n.publishedAt < now := by
  simp only [Repo.visible, Bool.and_eq_true, beq_iff_eq,
    decide_eq_true_eq] at h
  obtain ⟨⟨h1, hmatch⟩, h3⟩ := h
  refine ⟨h1, ?_, h3⟩
  cases hcat : categoryOf db n with
  | none => rw [hcat] at hmatch; cases hmatch
  | some c =>
    rw [hcat] at hmatch
    exact ⟨c, rfl, by simpa using hmatch⟩

/-- C1 amended: every row returned by the go-pg layer — by
`Repository.GetAllNews` for any filters and pagination window, and by
`Repository.GetNewsByID` for any id — satisfies the visibility predicate
(own status published, owning category loaded and published, publication
instant strictly before `now`); the pgx variant named by the claim enforces
none of these predicates (see the counterexample). -/
theorem getAllNews_getNewsByID_visible
    (db : DB) (tagID categoryID : Option Int) (page pageSize now : Int) :
    (∀ rows, Repo.GetAllNews db tagID categoryID page pageSize now = .ok rows →
      ∀ r ∈ rows, r.statusId = StatusPublished ∧
        (∃ c, r.category = some c ∧ c.statusId = StatusPublished) ∧
        r.publishedAt < now) ∧
    (∀ newsID n, Repo.GetNewsByID db newsID now = .ok n →
      n.statusId = StatusPublished ∧
        (∃ c, n.category = some c ∧ c.statusId = StatusPublished) ∧
        n.publishedAt < now) := by
  constructor
  · intro rows hrows r hr
    simp only [Repo.GetAllNews] at hrows
    split at hrows
    · cases hrows
    · simp only [Except.ok.injEq] at hrows
      subst hrows
      obtain ⟨n, hn, rfl⟩ := List.mem_map.mp hr
      have hn' := List.mem_of_mem_drop (List.mem_of_mem_take hn)
      have hmem := (List.mem_insertionSort publishedAtDesc).mp hn'
      have hpred := (List.mem_filter.mp hmem).2
      simp only [Bool.and_eq_true] at hpred
      obtain ⟨⟨hvis, _⟩, _⟩ := hpred
      obtain ⟨h1, ⟨c, hc, hcpub⟩, h3⟩ := visible_spec db now n hvis
      exact ⟨h1, ⟨c, by simpa using hc, hcpub⟩, h3⟩
  · intro newsID n hn
    simp only [Repo.GetNewsByID] at hn
    split at hn
    case h_1 n0 hfind =>
      simp only [Except.ok.injEq] at hn
      subst hn
      have hpred := List.find?_some hfind
      simp only [Bool.and_eq_true] at hpred
      obtain ⟨hvis, _⟩ := hpred
      obtain ⟨h1, ⟨c, hc, hcpub⟩, h3⟩ := visible_spec db now n0 hvis
      exact ⟨h1, ⟨c, by simpa using hc, hcpub⟩, h3⟩
    case h_2 => cases hn

/-- C1 amended, witness: applying the visibility theorem to the fixture state
at instant 10, page 1, page size 100 and no filters; the single returned row
is the published one, with its published category loaded, published in the
past. -/
theorem getAllNews_getNewsByID_visible_witness :
    ({ fixNews1 with category := some fixCat } : News).statusId =
        StatusPublished ∧
      (∃ c, ({ fixNews1 with category := some fixCat } : News).category =
        some c ∧ c.statusId = StatusPublished) ∧
      ({ fixNews1 with category := some fixCat } : News).publishedAt < 10 := by
  exact (getAllNews_getNewsByID_visible fixDB none none 1 100 10).1
    [{ fixNews1 with category := some fixCat }] rfl
    { fixNews1 with category := some fixCat } (by simp)

/-! ### Claim C5 — counterexample and amended statement -/

/-- C5 counterexample: on the fixture state (one visible and one unpublished
news row) `Repository.GetNewsCount` counts 2 while `Repository.GetAllNews`
with page 1 and a page size large enough for everything returns a single row:
the count does not apply the visibility predicates and disagrees with the
listing. -/
theorem getNewsCount_disagrees_with_listing :
    ∃ c rows, Repo.GetNewsCount fixDB none none = .ok c ∧
      Repo.GetAllNews fixDB none none 1 100 10 = .ok rows ∧
      ¬ c = rows.length := by
  refine ⟨2, _, rfl, rfl, ?_⟩
  decide

/-- C5 amended: `Repository.GetNewsCount` applies only the tag/category
filters; when additionally every stored row passing those filters is visible
at `now`, the count equals the number of rows returned by the listing at
page 1 with a page size at least the count. -/
theorem getNewsCount_listing_agree
    (db : DB) (tagID categoryID : Option Int) (now ps : Int) (count : Nat)
    (hc : Repo.GetNewsCount db tagID categoryID = .ok count)
    (hps : 1 ≤ ps) (hbig : (count : Int) ≤ ps)
    (hvis : ∀ n ∈ db.news,
      (Repo.catFilter categoryID n && Repo.tagFilter tagID n) = true →
      Repo.visible db now n = true) :
    (Repo.GetAllNews db tagID categoryID 1 ps now).map List.length =
      .ok count := by
  simp only [Repo.GetNewsCount, Except.ok.injEq] at hc
  have hfilter : db.news.filter (fun n =>
      Repo.visible db now n && Repo.catFilter categoryID n &&
        Repo.tagFilter tagID n) =
      db.news.filter (fun n =>
        Repo.catFilter categoryID n && Repo.tagFilter tagID n) := by
    apply List.filter_congr
    intro n hn
    cases hcg : Repo.catFilter categoryID n with
    | false => simp [hcg]
    | true =>
      cases htg : Repo.tagFilter tagID n with
      | false => simp [hcg, htg]
      | true =>
        have hv := hvis n hn (by simp [hcg, htg])
        simp [hv, hcg, htg]
  have hguard : (decide ((1 : Int) < 1) || decide (ps < 1)) = false := by
    simp only [Bool.or_eq_false_iff, decide_eq_false_iff_not, not_lt]
    omega
  have hoff : (((1 : Int) - 1) * ps).toNat = 0 := by norm_num
  simp only [Repo.GetAllNews, hguard, Bool.false_eq_true, if_false, hoff,
    List.drop_zero, Except.map, Except.ok.injEq]
  rw [List.length_map, List.length_take, List.length_insertionSort,
    hfilter, hc]
  omega

/-- C5 amended, witness: on a state whose single news row is visible, the
count (1) equals the listing's row count at page 1 with page size 100. -/
theorem getNewsCount_listing_agree_witness :
    (Repo.GetAllNews fixDBVisible none none 1 100 10).map List.length =
      .ok 1 := by
  exact getNewsCount_listing_agree fixDBVisible none none 10 100 1 rfl
    (by decide) (by decide) (by decide)

/-! ### Claim C2 — counterexample and amended statement -/

/-- C2 counterexample: on a two-row page whose rows both carry tag ids (so
the union of referenced tag identifiers is non-empty), the pgx
`Repository.GetAllNews` (`postgres.go` lines 69–108) named by the claim
issues two `getTagsByIDs` round-trips — one per scanned row inside the
`rows.Next()` loop — not one, refuting the one-lookup guarantee for that
cited variant. -/
theorem pgx_getAllNews_lookup_per_row :
    ∃ rows, (Pgx.GetAllNewsCounted fixDB none none 1 10 0).1 = .ok rows ∧
      rows.length = 2 ∧
      (Pgx.GetAllNewsCounted fixDB none none 1 10 0).2 = 2 ∧
      ¬ (Pgx.GetAllNewsCounted fixDB none none 1 10 0).2 = 1 := by
  refine ⟨_, rfl, by decide, rfl, by decide⟩

/-- C2 amended: whenever the union of tag ids referenced by the page is
non-empty, `Manager.attachTagsBatch` (`src/unnamed/part_016`) issues exactly
one tag-lookup round-trip against storage, regardless of how many rows the
page holds; the pgx `Repository.GetAllNews`, by contrast, issues one lookup
per row carrying tag ids (see the counterexample). -/
theorem attachTagsBatch_one_lookup (news : List News) (s : NP.TagStore)
    (h : NP.uniqueTagIds news ≠ []) :
    ((NP.attachTagsBatch news s).2).lookupCalls = s.lookupCalls + 1 := by
  have hne : news.isEmpty = false := by
    cases news with
    | nil => exact absurd rfl h
    | cons a l => rfl
  have hids : (NP.uniqueTagIds news).isEmpty = false := by
    cases hid : NP.uniqueTagIds news with
    | nil => exact absurd hid h
    | cons a l => rfl
  simp only [NP.attachTagsBatch, hne, Bool.false_eq_true, if_false, hids,
    NP.tagStoreLookup]
  cases s.fail <;> simp

/-- C2 witness: a one-row page referencing tags 1 and 2 causes exactly one
lookup round-trip on the fixture store (whose counter starts at 0). -/
theorem attachTagsBatch_one_lookup_witness :
    NP.uniqueTagIds [fixNews1] ≠ [] ∧
    ((NP.attachTagsBatch [fixNews1] fixStore).2).lookupCalls = 0 + 1 := by
  constructor
  · decide
  · exact attachTagsBatch_one_lookup [fixNews1] fixStore (by decide)

/-! ### Claim C10 — the batch attach only changes the tags field -/

/-- C10: on success, `Manager.attachTagsBatch` preserves the page as a frame
condition — erasing the `tags` field on the output gives exactly the input
with `tags` erased, so length, order, and every other field (ids, category
id, title, content, author, timestamps, status, tag-id list, embedded
category) are unchanged. -/
theorem attachTagsBatch_frame (news : List News) (s : NP.TagStore)
    (out : List News) (hout : (NP.attachTagsBatch news s).1 = .ok out) :
    out.map NP.clearTags = news.map NP.clearTags := by
  simp only [NP.attachTagsBatch] at hout
  split at hout
  · simp only [Except.ok.injEq] at hout
    subst hout
    rfl
  · split at hout
    · simp only [Except.ok.injEq] at hout
      subst hout
      rw [List.map_map]
      rfl
    · split at hout
      case h_1 e s' heq => cases hout
      case h_2 tags s' heq =>
        simp only [Except.ok.injEq] at hout
        subst hout
        rw [List.map_map]
        apply List.map_congr_left
        intro n _
        cases h : n.tagIds.isEmpty <;>
          simp [NP.clearTags, h, Function.comp]

/-- C10 witness: applying the frame theorem to the one-row fixture page: the
enriched output differs from the input only in the `tags` field. -/
theorem attachTagsBatch_frame_witness :
    ([{ fixNews1 with tags := [fixTagA] }].map NP.clearTags) =
      ([fixNews1].map NP.clearTags) := by
  exact attachTagsBatch_frame [fixNews1] fixStore
    [{ fixNews1 with tags := [fixTagA] }] rfl

/-! ### Claim C3 — counterexample and amended statement -/

/-- Any tag produced by `Repository.GetTagsByIDs` comes from the tag table
and is published. -/
theorem mem_getTagsByIDs (db : DB) (ids : List Int) (t : Tag)
    (h : t ∈ Repo.GetTagsByIDs db ids) :
    t ∈ db.tags ∧ t.statusId = StatusPublished := by
  simp only [Repo.GetTagsByIDs] at h
  split at h
  · cases h
  · have h' := (List.mem_insertionSort tagTitleAsc).mp h
    have hmem := List.mem_filter.mp h'
    refine ⟨hmem.1, ?_⟩
    have hpred := hmem.2
    simp only [Bool.and_eq_true, beq_iff_eq] at hpred
    exact hpred.2

/-- A successful Go map lookup `tagsByID[id]` yields an element of the list
the map was built from, keyed by its own tag id. -/
theorem lookupTag_spec (tags : List Tag) (id : Int) (t : Tag)
    (h : NP.lookupTag tags id = some t) : t ∈ tags ∧ t.tagId = id := by
  unfold NP.lookupTag at h
  constructor
  · have := List.mem_of_find?_eq_some h
    simpa using this
  · have := List.find?_some h
    simpa using this

/-- C3 counterexample: `NewsList.SetTags` (`collection.go` lines 9–17)
allocates one slot per tag id and indexes the id→tag map without an
existence check, so a row referencing the unpublished tag 2 — absent from
the published-only index — receives the zero-value `Tag` placeholder in its
resolved list, refuting the claim for the `SetTags` variant it names. -/
theorem setTags_zero_placeholder :
    ∃ r ∈ NP.SetTags [fixNews1] [fixTagA], NP.zeroTag ∈ r.tags ∧
      ¬ NP.zeroTag.statusId = StatusPublished := by
  decide

/-- C3 amended: in the `Manager.attachTagsBatch` pipeline (backed by
`Repository.GetTagsByIDs`) the claim holds — on success every resolved tag
is a published row of the tag table whose id the row referenced, and ids of
unpublished or nonexistent tags are omitted, so the resolved list is at most
as long as the tag-id list; `NewsList.SetTags` instead pads missing ids with
zero-value placeholders (see the counterexample). -/
theorem attachTagsBatch_tags_published (news : List News) (s : NP.TagStore)
    (out : List News) (hout : (NP.attachTagsBatch news s).1 = .ok out) :
    ∀ r ∈ out, (∀ t ∈ r.tags, t.statusId = StatusPublished ∧
      t ∈ s.db.tags ∧ t.tagId ∈ r.tagIds) ∧
      r.tags.length ≤ r.tagIds.length := by
  simp only [NP.attachTagsBatch] at hout
  split at hout
  case isTrue hempty =>
    simp only [Except.ok.injEq] at hout
    subst hout
    intro r hr
    rw [List.isEmpty_iff.mp hempty] at hr
    cases hr
  case isFalse =>
    split at hout
    · simp only [Except.ok.injEq] at hout
      subst hout
      intro r hr
      obtain ⟨n, _, rfl⟩ := List.mem_map.mp hr
      exact ⟨fun t ht => absurd ht (List.not_mem_nil t), by simp⟩
    · split at hout
      case h_1 e s' heq => cases hout
      case h_2 tags s' heq =>
        have htags : tags = Repo.GetTagsByIDs s.db (NP.uniqueTagIds news) := by
          simp only [NP.tagStoreLookup] at heq
          cases hfail : s.fail with
          | some msg => rw [hfail] at heq; cases heq
          | none =>
            rw [hfail] at heq
            have := congrArg Prod.fst heq
            simp only [Except.ok.injEq] at this
            exact this.symm
        simp only [Except.ok.injEq] at hout
        subst hout
        intro r hr
        obtain ⟨n, _, rfl⟩ := List.mem_map.mp hr
        cases hids : n.tagIds.isEmpty with
        | true =>
          simp only [hids, if_true]
          exact ⟨fun t ht => absurd ht (List.not_mem_nil t), by simp⟩
        | false =>
          simp only [hids, Bool.false_eq_true, if_false]
          constructor
          · intro t ht
            have ht' := (List.mem_insertionSort tagTitleAsc).mp ht
            obtain ⟨id, hid, hlook⟩ := List.mem_filterMap.mp ht'
            obtain ⟨hmem, hkey⟩ := lookupTag_spec tags id t hlook
            rw [htags] at hmem
            obtain ⟨htab, hpub⟩ :=
              mem_getTagsByIDs s.db (NP.uniqueTagIds news) t hmem
            exact ⟨hpub, htab, hkey ▸ hid⟩
          · rw [List.length_insertionSort]
            exact List.length_filterMap_le _ _

/-- C3 amended, witness: the fixture row references published tag 1 and
unpublished tag 2; the batch attach resolves exactly tag 1 — a published row
of the tag table with a referenced id — and the resolved list (length 1) is
shorter than the id list (length 2). -/
theorem attachTagsBatch_tags_published_witness :
    (fixTagA.statusId = StatusPublished ∧ fixTagA ∈ fixDB.tags ∧
      fixTagA.tagId ∈ fixNews1.tagIds) ∧
    [fixTagA].length ≤ fixNews1.tagIds.length := by
  have h := attachTagsBatch_tags_published [fixNews1] fixStore
    [{ fixNews1 with tags := [fixTagA] }] rfl
    { fixNews1 with tags := [fixTagA] } (by simp)
  exact ⟨h.1 fixTagA (by simp), h.2⟩

/-! ### Claim C7 — invalid explicit pagination is rejected -/

/-- C7: an explicit page below 1 or an explicit page size below 1 makes the
news listing fail with the invalid-argument error and return no rows — both
at the `Manager.NewsByFilter` level (via `validatePagination`) and at the
`Repository.GetAllNews` level (its own guard). -/
theorem newsListing_rejects_invalid_pagination :
    (∀ (fetched : Except String (List News)) (s : NP.TagStore)
      (page pageSize : Option Int),
      ((∃ pv, page = some pv ∧ pv < 1) ∨
        (∃ psv, pageSize = some psv ∧ psv < 1)) →
      ∃ e, (NP.NewsByFilter fetched s page pageSize).1 = .error e) ∧
    (∀ (db : DB) (tagID categoryID : Option Int) (page pageSize now : Int),
      page < 1 ∨ pageSize < 1 →
      ∃ e, Repo.GetAllNews db tagID categoryID page pageSize now =
        .error e) := by
  constructor
  · intro fetched s page pageSize h
    obtain ⟨e, he⟩ := validatePagination_error_of_invalid page pageSize h
    exact ⟨"invalid pagination parameters: " ++ e,
      by simp [NP.NewsByFilter, he]⟩
  · intro db tagID categoryID page pageSize now h
    refine ⟨"page or pageSize must be greater than 0", ?_⟩
    have hguard : (decide (page < 1) || decide (pageSize < 1)) = true := by
      rcases h with h | h <;> simp [h]
    simp [Repo.GetAllNews, hguard]

/-- C7 witness: page 0 and page size 0 are both rejected by the manager
listing, and `Repository.GetAllNews` rejects page 0 directly. -/
theorem newsListing_rejects_invalid_pagination_witness :
    (∃ e, (NP.NewsByFilter (.ok []) fixStore (some 0) none).1 = .error e) ∧
    (∃ e, (NP.NewsByFilter (.ok []) fixStore none (some 0)).1 = .error e) ∧
    (∃ e, Repo.GetAllNews fixDB none none 0 10 10 = .error e) := by
  refine ⟨?_, ?_, ?_⟩
  · exact newsListing_rejects_invalid_pagination.1 (.ok []) fixStore
      (some 0) none (Or.inl ⟨0, rfl, by decide⟩)
  · exact newsListing_rejects_invalid_pagination.1 (.ok []) fixStore
      none (some 0) (Or.inr ⟨0, rfl, by decide⟩)
  · exact newsListing_rejects_invalid_pagination.2 fixDB none none 0 10 10
      (Or.inl (by decide))

/-! ### Claim C8 — page-size cap at 100, no floor above 1 -/

/-- C8: with any valid (or absent) page, an explicit page size of at least 1
is accepted; the effective page size is exactly 100 when the request exceeds
100 and is the requested value unchanged otherwise — in particular a page
size of 1 stays 1. -/
theorem validatePagination_pageSize_cap (page : Option Int) (psv : Int)
    (hps : 1 ≤ psv) (hpage : ∀ v, page = some v → 0 < v) :
    NP.validatePagination page (some psv) =
      .ok (page.getD NP.defaultPage,
        if NP.maxPageSize < psv then NP.maxPageSize else psv) := by
  have hnle : ¬ psv ≤ 0 := by omega
  cases page with
  | none =>
    simp only [NP.validatePagination, Option.getD_none, hnle, if_false]
  | some v =>
    have hv : ¬ v ≤ 0 := by
      have := hpage v rfl
      omega
    simp only [NP.validatePagination, Option.getD_some, hv, if_false, hnle]

/-- C8 witness: a requested page size of 101 is capped to exactly 100, and a
requested page size of 1 is used unchanged. -/
theorem validatePagination_pageSize_cap_witness :
    NP.validatePagination none (some 101) = .ok (1, 100) ∧
    NP.validatePagination (some 3) (some 1) = .ok (3, 1) := by
  constructor
  · have h := validatePagination_pageSize_cap none 101 (by decide)
      (fun v hv => by cases hv)
    simpa using h
  · have h := validatePagination_pageSize_cap (some 3) 1 (by decide)
      (fun v hv => by cases hv; decide)
    simpa using h

/-! ### Claim C9 — absent pagination parameters take the defaults -/

/-- C9: absent pagination parameters are never rejected: with both absent the
listing paginates with page 1 and page size 10; an absent page size with any
valid explicit page gives page size 10; an absent page with any valid
explicit page size gives page 1 (and the usual cap). -/
theorem validatePagination_defaults :
    NP.validatePagination none none = .ok (1, 10) ∧
    (∀ pv : Int, 0 < pv →
      NP.validatePagination (some pv) none = .ok (pv, 10)) ∧
    (∀ psv : Int, 0 < psv →
      NP.validatePagination none (some psv) =
        .ok (1, if NP.maxPageSize < psv then NP.maxPageSize else psv)) := by
  refine ⟨rfl, ?_, ?_⟩
  · intro pv hpv
    have hv : ¬ pv ≤ 0 := by omega
    simp only [NP.validatePagination, hv, if_false]
    rfl
  · intro psv hpsv
    have hnle : ¬ psv ≤ 0 := by omega
    simp only [NP.validatePagination, hnle, if_false]
    rfl

/-- C9 witness: explicit page 5 with absent page size gives (5, 10); absent
page with explicit page size 7 gives (1, 7); both absent give (1, 10). -/
theorem validatePagination_defaults_witness :
    NP.validatePagination none none = .ok (1, 10) ∧
    NP.validatePagination (some 5) none = .ok (5, 10) ∧
    NP.validatePagination none (some 7) = .ok (1, 7) := by
  refine ⟨validatePagination_defaults.1, ?_, ?_⟩
  · exact validatePagination_defaults.2.1 5 (by decide)
  · have h := validatePagination_defaults.2.2 7 (by decide)
    simpa using h
